import Mathlib

/-!
Shallow embedding of `cms_hospitals_etl.py` (CMS Provider Hospitals ETL).

Pure string processing (`to_snake_case`) is translated directly.  I/O-bearing
functions (`load_last_update_date`, `update_last_run_date`,
`fetch_hospital_datasets`, `process_dataset`, `run_etl_job`) are translated to
pure functions over explicit inputs: file contents are passed as values, HTTP
and filesystem outcomes are passed as oracle functions, and a Python exception
escaping a function is an `Except.error` result.  Timestamps are modelled as
seconds since `datetime.min` (0001-01-01T00:00:00), a `Nat`.
-/

namespace CmsEtl

/-- Characters NOT replaced by the regex `[^a-z0-9]+` in `to_snake_case`:
lowercase ASCII letters and ASCII digits. -/
def isLowerAlnum (c : Char) : Bool :=
  (97 ≤ c.toNat && c.toNat ≤ 122) || (48 ≤ c.toNat && c.toNat ≤ 57)

/-- Models Python `str.lower` character-wise (ASCII case mapping; the ETL
feeds it CSV header text). -/
def pyToLower (c : Char) : Char :=
  if 65 ≤ c.toNat && c.toNat ≤ 90 then Char.ofNat (c.toNat + 32) else c

/-- The whitespace set of Python's default `str.strip` (ASCII part). -/
def isPySpace (c : Char) : Bool :=
  c.toNat = 32 || c.toNat = 9 || c.toNat = 10 || c.toNat = 13 ||
  c.toNat = 11 || c.toNat = 12

/-- Python `str.strip()` on a character list: drop whitespace from both ends. -/
def pyStrip (l : List Char) : List Char :=
  ((l.dropWhile isPySpace).reverse.dropWhile isPySpace).reverse

/-- `re.sub(r"[^a-z0-9]+", "_", s)` scanned left to right; `inRun` records
whether the scanner is inside a non-alphanumeric run that has already been
replaced by one underscore. -/
def subAux (inRun : Bool) : List Char → List Char
  | [] => []
  | c :: cs =>
    if isLowerAlnum c then c :: subAux false cs
    else if inRun then subAux true cs
    else '_' :: subAux true cs

/-- `to_snake_case` from the source: lowercase, replace each run of
non-`[a-z0-9]` characters with `_`, then `strip()` surrounding whitespace. -/
def to_snake_case (col_name : String) : String :=
  String.mk (pyStrip (subAux false (col_name.data.map pyToLower)))

/-- The spec's reference algorithm for the Name Normalizer, written as the
spec states it: lowercase the input, replace every MAXIMAL run of characters
outside `[a-z0-9]` with a single underscore, then trim surrounding
whitespace (not underscores) from the result. -/
def subSpec : List Char → List Char
  | [] => []
  | c :: cs =>
    if isLowerAlnum c then c :: subSpec cs
    else '_' :: subSpec (cs.dropWhile (fun d => !isLowerAlnum d))
termination_by l => l.length
decreasing_by
  all_goals
    have h : (cs.dropWhile (fun d => !isLowerAlnum d)).length ≤ cs.length :=
      (List.dropWhile_sublist _).length_le
    simp only [List.length_cons]
    omega

/-- The Name Normalizer as specified (see `subSpec`). -/
def normalize_spec (name : String) : String :=
  String.mk (pyStrip (subSpec (name.data.map pyToLower)))

example : to_snake_case "Facility ID" = "facility_id" := by decide
example : to_snake_case "  Hospital--Name!!  " = "_hospital_name_" := by decide

/-! ### Timestamps: `datetime.fromisoformat`, modelled as seconds since `datetime.min` -/

def isLeap (y : Nat) : Bool := (y % 4 = 0 && y % 100 ≠ 0) || y % 400 = 0

def monthDays : List Nat := [31, 28, 31, 30, 31, 30, 31, 31, 30, 31, 30, 31]

def daysInMonth (y m : Nat) : Nat :=
  if m = 2 && isLeap y then 29 else monthDays.getD (m - 1) 0

def daysBeforeYear (y : Nat) : Nat :=
  let n := y - 1
  n * 365 + n / 4 - n / 100 + n / 400

def daysBeforeMonth (y m : Nat) : Nat :=
  (monthDays.take (m - 1)).foldl (· + ·) 0 + (if 2 < m && isLeap y then 1 else 0)

def digitVal (c : Char) : Option Nat :=
  if 48 ≤ c.toNat && c.toNat ≤ 57 then some (c.toNat - 48) else none

def num2 (a b : Char) : Option Nat := do
  let x ← digitVal a
  let y ← digitVal b
  pure (10 * x + y)

def num4 (a b c d : Char) : Option Nat := do
  let x ← num2 a b
  let y ← num2 c d
  pure (100 * x + y)

/-- Seconds since 0001-01-01T00:00:00 for a validated date-time, `none` for an
out-of-range field (the ValueError `datetime` raises). -/
def mkTimestamp (y m d hh mi ss : Nat) : Option Nat :=
  if 1 ≤ y && y ≤ 9999 && 1 ≤ m && m ≤ 12 && 1 ≤ d && d ≤ daysInMonth y m &&
      hh ≤ 23 && mi ≤ 59 && ss ≤ 59 then
    some ((daysBeforeYear y + daysBeforeMonth y m + (d - 1)) * 86400 +
      hh * 3600 + mi * 60 + ss)
  else none

/-- Models Python `datetime.fromisoformat` on the formats this ETL meets:
`YYYY-MM-DD` and `YYYY-MM-DDTHH:MM:SS`, mapped to seconds since
`datetime.min`; `none` models the ValueError raised on any other input. -/
def fromisoformat (s : String) : Option Nat :=
  match s.data with
  | [y1, y2, y3, y4, p1, m1, m2, p2, d1, d2] =>
    if p1 = '-' ∧ p2 = '-' then do
      let y ← num4 y1 y2 y3 y4
      let m ← num2 m1 m2
      let d ← num2 d1 d2
      mkTimestamp y m d 0 0 0
    else none
  | [y1, y2, y3, y4, p1, m1, m2, p2, d1, d2, t1, h1, h2, q1, i1, i2, q2, s1, s2] =>
    if p1 = '-' ∧ p2 = '-' ∧ t1 = 'T' ∧ q1 = ':' ∧ q2 = ':' then do
      let y ← num4 y1 y2 y3 y4
      let m ← num2 m1 m2
      let d ← num2 d1 d2
      let hh ← num2 h1 h2
      let mi ← num2 i1 i2
      let ss ← num2 s1 s2
      mkTimestamp y m d hh mi ss
    else none
  | _ => none

/-- `datetime.min` in the seconds model: 0001-01-01T00:00:00. -/
def datetimeMin : Nat := 0

example : fromisoformat "0001-01-01T00:00:00" = some 0 := by decide
example : fromisoformat "0001-01-01T00:00:01" = some 1 := by decide
example : fromisoformat "0001-01-02" = some 86400 := by decide
example : fromisoformat "garbage" = none := by decide
example : fromisoformat "" = none := by decide

/-! ### Metadata store: `load_last_update_date` / `update_last_run_date` -/

/-- The JSON text `json.dump(\x7b"last_run": now\x7d, f)` writes. -/
def metaPrefix : String := "\x7b\"last_run\": \""

def metaSuffix : String := "\"\x7d"

/-- `update_last_run_date`: the metadata file content written at the end of a
run, where `now_iso` is `datetime.now().isoformat()`. -/
def update_last_run_date (now_iso : String) : String :=
  metaPrefix ++ now_iso ++ metaSuffix

/-- Models `json.load` followed by `.get("last_run")` on the metadata file:
succeeds exactly on the one-key object shape `update_last_run_date` writes,
returning the stored string; `none` models the exception `json.load` raises
on other content (or a missing key, where `fromisoformat(None)` then raises). -/
def metaLastRun (s : String) : Option String :=
  let pre := metaPrefix.data
  let suf := metaSuffix.data
  let l := s.data
  if pre.isPrefixOf l ∧ suf.isSuffixOf l ∧ pre.length + suf.length ≤ l.length then
    some (String.mk ((l.drop pre.length).take (l.length - pre.length - suf.length)))
  else none

/-- `load_last_update_date` over the metadata file content (`none` = the file
does not exist).  `.error` models an exception escaping the function. -/
def load_last_update_date (metaFile : Option String) : Except String Nat :=
  match metaFile with
  | none => .ok datetimeMin
  | some content =>
    match metaLastRun content with
    | none => .error "metadata corrupt: json decode error"
    | some lr =>
      match fromisoformat lr with
      | none => .error "metadata corrupt: invalid isoformat string"
      | some t => .ok t

example : load_last_update_date none = .ok 0 := rfl
example : (load_last_update_date (some (update_last_run_date "0001-01-02"))).toOption
    = some 86400 := by decide
example : (load_last_update_date (some "garbage")).toOption = none := by decide

/-! ### Catalog client: `fetch_hospital_datasets` -/

/-- One entry of a descriptor's `distribution` array. -/
structure Distribution where
  downloadURL : Option String
deriving DecidableEq

/-- A catalog dataset record, with each field the ETL reads made an explicit
optional (`ds.get(...)`); `distribution` defaults to `[]` as in
`dataset.get("distribution", [])`. -/
structure Dataset where
  identifier : Option String
  modified : Option String
  theme : Option (List String)
  distribution : List Distribution
deriving DecidableEq

/-- The filter predicate of `fetch_hospital_datasets`:
`ds.get("theme") and "Hospitals" in ds["theme"]` — the `theme` field must be
present and truthy (non-empty list) and Python's `in` on a list is membership
tested by equality. -/
def themeMatches (ds : Dataset) : Bool :=
  match ds.theme with
  | none => false
  | some ts => !ts.isEmpty && ts.contains "Hospitals"

/-- `fetch_hospital_datasets` applied to the JSON array a successful catalog
request returns (the HTTP call itself is handled in `run_etl_job`). -/
def fetch_hospital_datasets (datasets : List Dataset) : List Dataset :=
  datasets.filter themeMatches

example :
    fetch_hospital_datasets
      [⟨some "a", none, some ["Hospitals"], []⟩,
       ⟨some "b", none, some ["General Hospitals", "Other"], []⟩,
       ⟨some "c", none, some ["Clinics"], []⟩,
       ⟨some "d", none, none, []⟩] =
      [⟨some "a", none, some ["Hospitals"], []⟩] := by decide

/-! ### Dataset processor: `process_dataset` -/

/-- The in-memory table `pd.read_csv(url, dtype=str)` yields: a header row and
string-typed cells. -/
structure Csv where
  header : List String
  rows : List (List String)
deriving DecidableEq

/-- `process_dataset`, with the two I/O points of its `try` block passed as
oracles: `net url` is the outcome of `pd.read_csv(url, dtype=str)` and
`writeOk file` says whether `df.to_csv(file)` succeeds.  The result is
`.error e` when an exception escapes the function, else `.ok (r, ws)` where
`r` is the Python return value and `ws` the files written with their content
(output paths are relative to `OUTPUT_DIR`, which is elided). -/
def process_dataset (net : String → Except String Csv) (writeOk : String → Bool)
    (dataset : Dataset) (last_run_date : Nat) :
    Except String (Option String × List (String × Csv)) :=
  let dataset_id := dataset.identifier.getD ""
  let modified := dataset.modified.getD ""
  if dataset_id = "" ∨ modified = "" then .ok (none, [])
  else
    match fromisoformat modified with
    | none => .error ("ValueError: invalid isoformat string: " ++ modified)
    | some modified_date =>
      if modified_date ≤ last_run_date then .ok (none, [])
      else
        match dataset.distribution with
        | [] => .ok (none, [])
        | dist0 :: _ =>
          match dist0.downloadURL with
          | none => .ok (none, [])
          | some download_url =>
            if download_url = "" then .ok (none, [])
            else
              match net download_url with
              | .error _ => .ok (none, [])
              | .ok df =>
                let out : Csv := ⟨df.header.map to_snake_case, df.rows⟩
                let output_file := dataset_id ++ ".csv"
                if writeOk output_file then .ok (some dataset_id, [(output_file, out)])
                else .ok (none, [])

/-! ### Orchestrator: `run_etl_job` -/

/-- Observable events of a run, in order: completion of one `process_dataset`
attempt, and the metadata write of `update_last_run_date`. -/
inductive Event where
  | attempt (id : String)
  | save (iso : String)
deriving DecidableEq

/-- Is an event the metadata save? -/
def isSaveEvent : Event → Bool
  | .save _ => true
  | .attempt _ => false

/-- Aggregated outcome of a run. -/
structure RunOut where
  trace : List Event
  processed : List String
  writes : List (String × Csv)
deriving DecidableEq

/-- The dataset pass of `run_etl_job`: every candidate is handed to
`process_dataset` and results are aggregated.  The worker pool is modelled
sequentially (the spec fixes no ordering between independent datasets).  An
exception escaping `process_dataset` is re-raised by `future.result()` and
aborts the aggregation, as in the source. -/
def processAll (net : String → Except String Csv) (writeOk : String → Bool)
    (last_run : Nat) : List Dataset → Except String RunOut
  | [] => .ok ⟨[], [], []⟩
  | ds :: rest =>
    match process_dataset net writeOk ds last_run with
    | .error e => .error e
    | .ok (r, ws) =>
      match processAll net writeOk last_run rest with
      | .error e => .error e
      | .ok out =>
        .ok ⟨Event.attempt (ds.identifier.getD "") :: out.trace,
             (match r with | some id => id :: out.processed | none => out.processed),
             ws ++ out.writes⟩

/-- `run_etl_job`: returns the run outcome together with the final metadata
file content (left unchanged from `metaFile` whenever the run aborts).
`catalog` is the outcome of the catalog HTTP GET (`raise_for_status` or an
unreachable endpoint as `.error`); `now_iso` is `datetime.now().isoformat()`
at the time the metadata is rewritten. -/
def run_etl_job (metaFile : Option String) (catalog : Except String (List Dataset))
    (net : String → Except String Csv) (writeOk : String → Bool) (now_iso : String) :
    Except String RunOut × Option String :=
  match load_last_update_date metaFile with
  | .error e => (.error e, metaFile)
  | .ok last_run =>
    match catalog with
    | .error e => (.error e, metaFile)
    | .ok datasets =>
      match processAll net writeOk last_run (fetch_hospital_datasets datasets) with
      | .error e => (.error e, metaFile)
      | .ok out =>
        (.ok ⟨out.trace ++ [Event.save now_iso], out.processed, out.writes⟩,
         some (update_last_run_date now_iso))

/-! ### Lemmas about the Name Normalizer -/

/-- After an underscore was just emitted, the scanner behaves like a fresh
scan of the input with its leading non-alphanumeric run removed. -/
theorem subAux_true_eq (l : List Char) :
    subAux true l = subAux false (l.dropWhile (fun d => !isLowerAlnum d)) := by
  induction l with
  | nil => rfl
  | cons c cs ih =>
    by_cases h : isLowerAlnum c
    · simp [subAux, h, List.dropWhile_cons]
    · simp [subAux, h, List.dropWhile_cons, ih]

/-- The source's left-to-right scan computes the spec's
replace-maximal-runs substitution. -/
theorem subSpec_eq_subAux (l : List Char) : subSpec l = subAux false l := by
  induction l using subSpec.induct with
  | case1 => simp [subSpec, subAux]
  | case2 c cs h ih => simp [subSpec, subAux, h, ih]
  | case3 c cs h ih => simp [subSpec, subAux, h, ih, subAux_true_eq]

/-- Every character the substitution emits is a lowercase alphanumeric or an
underscore. -/
theorem mem_subAux {c : Char} :
    ∀ {l : List Char} {b : Bool}, c ∈ subAux b l → isLowerAlnum c = true ∨ c = '_' := by
  intro l
  induction l with
  | nil => intro b h; simp [subAux] at h
  | cons a as ih =>
    intro b h
    by_cases ha : isLowerAlnum a
    · simp only [subAux, ha, if_true, List.mem_cons] at h
      rcases h with h | h
      · subst h; exact Or.inl ha
      · exact ih h
    · simp only [subAux, ha, if_false] at h
      cases b with
      | true => exact ih h
      | false =>
        rcases List.mem_cons.mp h with h | h
        · subst h; exact Or.inr rfl
        · exact ih h

/-- `chainOK b l` holds when `l` has no two adjacent non-alphanumeric
characters and, if `b` is set, does not start with one. -/
def chainOK : Bool → List Char → Bool
  | _, [] => true
  | b, c :: cs =>
    if isLowerAlnum c then chainOK false cs
    else if b then false else chainOK true cs

/-- The substitution's output never has two adjacent underscores. -/
theorem chainOK_subAux : ∀ (l : List Char) (b : Bool), chainOK b (subAux b l) = true := by
  intro l
  induction l with
  | nil => intro b; rfl
  | cons a as ih =>
    intro b
    have hu : isLowerAlnum '_' = false := by decide
    by_cases ha : isLowerAlnum a
    · simp [subAux, ha, chainOK, ih false]
    · cases b with
      | true => simp [subAux, ha, ih true]
      | false => simp [subAux, ha, chainOK, hu, ih true]

/-- The substitution fixes any list of lowercase alphanumerics and
non-adjacent underscores. -/
theorem subAux_fix :
    ∀ (l : List Char) (b : Bool), (∀ c ∈ l, isLowerAlnum c = true ∨ c = '_') →
      chainOK b l = true → subAux b l = l := by
  intro l
  induction l with
  | nil => intro b _ _; rfl
  | cons a as ih =>
    intro b hmem hchain
    have hmem' : ∀ c ∈ as, isLowerAlnum c = true ∨ c = '_' :=
      fun c hc => hmem c (List.mem_cons_of_mem a hc)
    by_cases ha : isLowerAlnum a
    · simp only [chainOK, ha, if_true] at hchain
      simp [subAux, ha, ih false hmem' hchain]
    · have ha' : a = '_' := (hmem a (List.mem_cons_self a as)).resolve_left ha
      cases b with
      | true => simp [chainOK, ha] at hchain
      | false =>
        simp only [chainOK, ha, if_false, Bool.false_eq_true] at hchain
        have hu : isLowerAlnum '_' = false := by decide
        simp [subAux, ha, ha', hu, ih true hmem' hchain]

/-- Lowercasing fixes lowercase alphanumerics and underscores. -/
theorem pyToLower_fix (c : Char) (h : isLowerAlnum c = true ∨ c = '_') :
    pyToLower c = c := by
  rcases h with h | h
  · simp only [isLowerAlnum, Bool.or_eq_true, Bool.and_eq_true, decide_eq_true_eq] at h
    unfold pyToLower
    split
    · rename_i hc
      simp only [Bool.and_eq_true, decide_eq_true_eq] at hc
      omega
    · rfl
  · subst h; decide

/-- Lowercase alphanumerics and underscores are not whitespace. -/
theorem not_pySpace (c : Char) (h : isLowerAlnum c = true ∨ c = '_') :
    isPySpace c = false := by
  rcases h with h | h
  · simp only [isLowerAlnum, Bool.or_eq_true, Bool.and_eq_true, decide_eq_true_eq] at h
    simp only [isPySpace, Bool.or_eq_false_iff, decide_eq_false_iff_not]
    omega
  · subst h; decide

theorem dropWhile_eq_self_of_not (l : List Char)
    (h : ∀ c ∈ l, isPySpace c = false) : l.dropWhile isPySpace = l := by
  cases l with
  | nil => rfl
  | cons a as => simp [List.dropWhile_cons, h a (List.mem_cons_self a as)]

/-- `strip()` fixes any list free of whitespace. -/
theorem pyStrip_eq_self (l : List Char) (h : ∀ c ∈ l, isPySpace c = false) :
    pyStrip l = l := by
  unfold pyStrip
  rw [dropWhile_eq_self_of_not l h]
  rw [dropWhile_eq_self_of_not l.reverse (fun c hc => h c (List.mem_reverse.mp hc))]
  exact List.reverse_reverse l

/-- `to_snake_case` with the final no-op `strip()` unfolded away: the
substitution leaves no whitespace for it to remove. -/
theorem to_snake_case_eq (s : String) :
    to_snake_case s = String.mk (subAux false (s.data.map pyToLower)) := by
  unfold to_snake_case
  rw [pyStrip_eq_self _ (fun c hc => not_pySpace c (mem_subAux hc))]

theorem map_pyToLower_fix (l : List Char)
    (h : ∀ c ∈ l, isLowerAlnum c = true ∨ c = '_') : l.map pyToLower = l := by
  induction l with
  | nil => rfl
  | cons a as ih =>
    simp only [List.map_cons, pyToLower_fix a (h a (List.mem_cons_self a as)),
      ih (fun c hc => h c (List.mem_cons_of_mem a hc))]

/-- The `themeMatches` filter keeps a descriptor exactly when its `theme`
field is a list with an entry EQUAL to `"Hospitals"`. -/
theorem themeMatches_iff (ds : Dataset) :
    themeMatches ds = true ↔ ∃ ts, ds.theme = some ts ∧ "Hospitals" ∈ ts := by
  unfold themeMatches
  cases h : ds.theme with
  | none => simp
  | some ts =>
    simp only [Bool.and_eq_true, Bool.not_eq_true', List.isEmpty_eq_false,
      List.elem_iff, Option.some.injEq]
    constructor
    · rintro ⟨_, hmem⟩
      exact ⟨ts, rfl, hmem⟩
    · rintro ⟨ts2, hts, hmem⟩
      subst hts
      exact ⟨List.ne_nil_of_mem hmem, hmem⟩

/-! ### Claim theorems -/

/-- C3 counterexample: the spec's second normalizer example fails on the code:
`to_snake_case "  Hospital--Name!!  "` is `"_hospital_name_"`, not
`"hospital_name"`, because `strip()` runs after the substitution has already
turned the surrounding whitespace into underscores. -/
theorem C3_counterexample :
    to_snake_case "  Hospital--Name!!  " ≠ "hospital_name" ∧
    to_snake_case "  Hospital--Name!!  " = "_hospital_name_" := by decide

/-- C3 amended: `normalize("Facility ID")` returns `"facility_id"`, and
`normalize("  Hospital--Name!!  ")` returns `"_hospital_name_"` (the
leading/trailing whitespace runs are replaced by underscores, which the final
whitespace-only strip does not remove). -/
theorem C3_normalize_examples :
    to_snake_case "Facility ID" = "facility_id" ∧
    to_snake_case "  Hospital--Name!!  " = "_hospital_name_" := by decide

/-- C4: for every input string, `to_snake_case` equals the spec's reference
algorithm: lowercase, replace every maximal run of characters outside
`[a-z0-9]` with a single underscore, trim surrounding whitespace only. -/
theorem C4_normalize_matches_spec_algorithm (s : String) :
    to_snake_case s = normalize_spec s := by
  unfold to_snake_case normalize_spec
  rw [subSpec_eq_subAux]

/-- C4 witness at a concrete input. -/
theorem C4_witness :
    to_snake_case "  Hospital--Name!!  " = normalize_spec "  Hospital--Name!!  " :=
  C4_normalize_matches_spec_algorithm "  Hospital--Name!!  "

/-- C7: `to_snake_case` is idempotent. -/
theorem C7_normalize_idempotent (x : String) :
    to_snake_case (to_snake_case x) = to_snake_case x := by
  rw [to_snake_case_eq x, to_snake_case_eq]
  have hmem : ∀ c ∈ subAux false (x.data.map pyToLower),
      isLowerAlnum c = true ∨ c = '_' := fun _ hc => mem_subAux hc
  rw [map_pyToLower_fix _ hmem,
    subAux_fix _ false hmem (chainOK_subAux (x.data.map pyToLower) false)]

/-- C7 witness at a concrete input. -/
theorem C7_witness :
    to_snake_case (to_snake_case "  Hospital--Name!!  ") =
      to_snake_case "  Hospital--Name!!  " :=
  C7_normalize_idempotent "  Hospital--Name!!  "

/-- C1 counterexample: the claim says a descriptor with
`theme = ["General Hospitals", "Other"]` is retained (substring match), but
`fetch_hospital_datasets` drops it: Python's `"Hospitals" in ds["theme"]` on a
list is membership tested by equality, and no entry equals `"Hospitals"`. -/
theorem C1_counterexample :
    fetch_hospital_datasets
      [⟨some "ds1", some "2024-01-01", some ["General Hospitals", "Other"], []⟩] = [] := by
  decide

/-- C1 amended: a catalog record is retained by `fetch_hospital_datasets` if
and only if its `theme` field is present and some theme entry is EQUAL to
`"Hospitals"` (list membership, not substring); in particular
`theme = ["General Hospitals", "Other"]` is excluded, `theme = ["Clinics"]`
is excluded, and a record with no `theme` field is excluded. -/
theorem C1_filter_by_theme_membership (datasets : List Dataset) (ds : Dataset) :
    ds ∈ fetch_hospital_datasets datasets ↔
      ds ∈ datasets ∧ ∃ ts, ds.theme = some ts ∧ "Hospitals" ∈ ts := by
  unfold fetch_hospital_datasets
  rw [List.mem_filter, themeMatches_iff]

/-- C1 witness: a record whose theme list contains the exact entry
`"Hospitals"` is retained. -/
theorem C1_witness :
    (⟨some "a", none, some ["Hospitals"], []⟩ : Dataset) ∈
      fetch_hospital_datasets [⟨some "a", none, some ["Hospitals"], []⟩] :=
  (C1_filter_by_theme_membership _ _).mpr
    ⟨by decide, ["Hospitals"], rfl, by decide⟩

/-- C2 counterexample: an error CAN escape `process_dataset` — a descriptor
whose `modified` field is present but not ISO-formatted makes
`datetime.fromisoformat` raise BEFORE the `try` block, and the exception
unwinds into the orchestrator's `future.result()`. -/
theorem C2_counterexample :
    process_dataset (fun _ => .error "network down") (fun _ => true)
      ⟨some "ds1", some "garbage", some ["Hospitals"], [⟨some "u"⟩]⟩ 0 =
      .error "ValueError: invalid isoformat string: garbage" := by rfl

/-- Whenever the `modified` field parses, `process_dataset` cannot raise:
every later failure is caught inside the `try` block. -/
theorem process_dataset_ok_of_parse (net : String → Except String Csv)
    (writeOk : String → Bool) (ds : Dataset) (lr t : Nat)
    (hf : fromisoformat (ds.modified.getD "") = some t) :
    ∃ r, process_dataset net writeOk ds lr = .ok r := by
  simp only [process_dataset]
  by_cases h1 : ds.identifier.getD "" = "" ∨ ds.modified.getD "" = ""
  · rw [if_pos h1]; exact ⟨_, rfl⟩
  · rw [if_neg h1]
    simp only [hf]
    by_cases hle : t ≤ lr
    · rw [if_pos hle]; exact ⟨_, rfl⟩
    · rw [if_neg hle]
      cases hd : ds.distribution with
      | nil => exact ⟨_, rfl⟩
      | cons d0 rest =>
        cases hu : d0.downloadURL with
        | none => simp only [hu]; exact ⟨_, rfl⟩
        | some url =>
          simp only [hu]
          by_cases hue : url = ""
          · rw [if_pos hue]; exact ⟨_, rfl⟩
          · rw [if_neg hue]
            cases hn : net url with
            | error e2 => simp only [hn]; exact ⟨_, rfl⟩
            | ok df =>
              simp only [hn]
              by_cases hw : writeOk (ds.identifier.getD "" ++ ".csv") = true
              · rw [if_pos hw]; exact ⟨_, rfl⟩
              · rw [if_neg hw]; exact ⟨_, rfl⟩

/-- C2 amended: failures of the download/parse/write phase (the `net` and
`writeOk` oracles) are always caught and converted to a skip; the ONE way an
error escapes `process_dataset` is a present, non-empty `modified` field that
`fromisoformat` cannot parse. -/
theorem C2_error_escapes_iff_bad_modified (net : String → Except String Csv)
    (writeOk : String → Bool) (ds : Dataset) (lr : Nat) :
    (∃ e, process_dataset net writeOk ds lr = .error e) ↔
      ds.identifier.getD "" ≠ "" ∧ ds.modified.getD "" ≠ "" ∧
        fromisoformat (ds.modified.getD "") = none := by
  constructor
  · rintro ⟨e, he⟩
    by_cases h1 : ds.identifier.getD "" = "" ∨ ds.modified.getD "" = ""
    · exfalso
      simp only [process_dataset] at he
      rw [if_pos h1] at he
      exact Except.noConfusion he
    · push_neg at h1
      refine ⟨h1.1, h1.2, ?_⟩
      cases hf : fromisoformat (ds.modified.getD "") with
      | none => rfl
      | some t =>
        obtain ⟨r, hr⟩ := process_dataset_ok_of_parse net writeOk ds lr t hf
        rw [hr] at he
        exact Except.noConfusion he
  · rintro ⟨h1, h2, hf⟩
    refine ⟨"ValueError: invalid isoformat string: " ++ ds.modified.getD "", ?_⟩
    simp only [process_dataset]
    rw [if_neg (not_or.mpr ⟨h1, h2⟩), hf]

/-- C2 witness: at the `"garbage"` descriptor the right side holds and the
escape is produced. -/
theorem C2_witness :
    ∃ e, process_dataset (fun _ => .error "network down") (fun _ => true)
      ⟨some "ds1", some "garbage", some ["Hospitals"], [⟨some "u"⟩]⟩ 0 = .error e :=
  (C2_error_escapes_iff_bad_modified (fun _ => .error "network down") (fun _ => true)
      ⟨some "ds1", some "garbage", some ["Hospitals"], [⟨some "u"⟩]⟩ 0).mpr
    ⟨by decide, by decide, by decide⟩

/-- C5: with `identifier` and a parseable `modified` present, the staleness
gate is exact: `modified <= last_run` returns the skip result `(None, no
writes)` whatever the network does; `modified > last_run` (by as little as
one second) with a valid first distribution, a successful download and a
successful write returns the identifier and writes the one output file. -/
theorem C5_staleness_gate (ds : Dataset) (lr t : Nat) (id m : String)
    (hid : ds.identifier = some id) (hid' : id ≠ "")
    (hm : ds.modified = some m) (ht : fromisoformat m = some t) :
    (t ≤ lr → ∀ (net : String → Except String Csv) (writeOk : String → Bool),
      process_dataset net writeOk ds lr = .ok (none, [])) ∧
    (lr < t → ∀ (net : String → Except String Csv) (writeOk : String → Bool)
        (url : String) (df : Csv) (rest : List Distribution),
      ds.distribution = ⟨some url⟩ :: rest → url ≠ "" → net url = .ok df →
      writeOk (id ++ ".csv") = true →
      process_dataset net writeOk ds lr =
        .ok (some id, [(id ++ ".csv", ⟨df.header.map to_snake_case, df.rows⟩)])) := by
  have hm' : m ≠ "" := by
    intro h0
    rw [h0] at ht
    exact Option.noConfusion ht
  constructor
  · intro hle net writeOk
    simp only [process_dataset, hid, hm, Option.getD_some]
    rw [if_neg (not_or.mpr ⟨hid', hm'⟩)]
    simp only [ht]
    rw [if_pos hle]
  · intro hlt net writeOk url df rest hdist hurl hnet hw
    simp only [process_dataset, hid, hm, Option.getD_some]
    rw [if_neg (not_or.mpr ⟨hid', hm'⟩)]
    simp only [ht, hdist]
    rw [if_neg (Nat.not_le.mpr hlt)]
    simp only [if_neg hurl, hnet, hw, if_true]

/-- C5 witness: with `last_run` at 0001-01-01T00:00:00, a dataset modified at
that same instant is skipped, and one modified one second later is processed. -/
theorem C5_witness :
    process_dataset (fun _ => .error "network down") (fun _ => false)
      ⟨some "a", some "0001-01-01T00:00:00", some ["Hospitals"], [⟨some "u"⟩]⟩ 0 =
      .ok (none, []) ∧
    process_dataset (fun _ => .ok ⟨["Facility ID"], [["1"]]⟩) (fun _ => true)
      ⟨some "a", some "0001-01-01T00:00:01", some ["Hospitals"], [⟨some "u"⟩]⟩ 0 =
      .ok (some "a", [("a" ++ ".csv",
        ⟨(["Facility ID"] : List String).map to_snake_case, [["1"]]⟩)]) := by
  constructor
  · exact (C5_staleness_gate
      ⟨some "a", some "0001-01-01T00:00:00", some ["Hospitals"], [⟨some "u"⟩]⟩ 0 0 "a"
      "0001-01-01T00:00:00" rfl (by decide) rfl (by decide)).1 (by decide) _ _
  · exact (C5_staleness_gate
      ⟨some "a", some "0001-01-01T00:00:01", some ["Hospitals"], [⟨some "u"⟩]⟩ 0 1 "a"
      "0001-01-01T00:00:01" rfl (by decide) rfl (by decide)).2 (by decide) _ _
      "u" ⟨["Facility ID"], [["1"]]⟩ [] rfl (by decide) rfl rfl

/-- C6 counterexample: re-materialization is NOT equivalent to
`modified > last_run` — here `modified` (0001-01-02, i.e. second 86400) is
strictly greater than `last_run` (`datetime.min`), yet the download fails and
no file is written, so "strictly newer" does not imply "re-materialized". -/
theorem C6_counterexample :
    (fromisoformat "0001-01-02" = some 86400 ∧ datetimeMin < 86400) ∧
    process_dataset (fun _ => .error "connection error") (fun _ => true)
      ⟨some "a", some "0001-01-02", some ["Hospitals"], [⟨some "u"⟩]⟩ datetimeMin =
      .ok (none, []) := by
  constructor
  · constructor
    · decide
    · decide
  · rfl

/-- C6 amended: the "only if" half of the invariant holds — whenever
`process_dataset` writes an output file, the dataset's `modified` timestamp
parses and is strictly greater than the `last_run` watermark (strict newness
is necessary for re-materialization, but not sufficient: missing
distributions or a failed download/write still skip). -/
theorem C6_writes_only_if_newer (net : String → Except String Csv)
    (writeOk : String → Bool) (ds : Dataset) (lr : Nat)
    (r : Option String) (ws : List (String × Csv))
    (h : process_dataset net writeOk ds lr = .ok (r, ws)) (hw : ws ≠ []) :
    ∃ m t, ds.modified = some m ∧ fromisoformat m = some t ∧ lr < t := by
  simp only [process_dataset] at h
  by_cases h1 : ds.identifier.getD "" = "" ∨ ds.modified.getD "" = ""
  · rw [if_pos h1] at h
    exfalso
    obtain ⟨-, hws⟩ := Prod.mk.injEq .. ▸ Except.ok.inj h
    exact hw hws.symm
  · rw [if_neg h1] at h
    push_neg at h1
    have hmod : ds.modified = some (ds.modified.getD "") := by
      cases hmm : ds.modified with
      | none => rw [hmm] at h1; exact absurd rfl h1.2
      | some m => rfl
    cases hf : fromisoformat (ds.modified.getD "") with
    | none =>
      rw [hf] at h
      exact Except.noConfusion h
    | some t =>
      simp only [hf] at h
      refine ⟨ds.modified.getD "", t, hmod, hf, ?_⟩
      by_cases hle : t ≤ lr
      · rw [if_pos hle] at h
        exfalso
        obtain ⟨-, hws⟩ := Prod.mk.injEq .. ▸ Except.ok.inj h
        exact hw hws.symm
      · exact Nat.lt_of_not_le fun hc => hle (by omega)

/-- C6 witness: a successful download and write at a strictly newer
`modified` yields the existence statement. -/
theorem C6_witness :
    ∃ m t, (⟨some "a", some "0001-01-02", some ["Hospitals"],
      [⟨some "u"⟩]⟩ : Dataset).modified = some m ∧
      fromisoformat m = some t ∧ datetimeMin < t :=
  C6_writes_only_if_newer (fun _ => .ok ⟨["c"], []⟩) (fun _ => true)
    ⟨some "a", some "0001-01-02", some ["Hospitals"], [⟨some "u"⟩]⟩ datetimeMin
    (some "a") [("a" ++ ".csv", ⟨(["c"] : List String).map to_snake_case, []⟩)]
    (by rfl) (by simp)

/-- C10: a present-but-empty `identifier` or `modified` is falsy in Python, so
`process_dataset` returns the skip result before parsing any timestamp or
touching the network — exactly as it does when the field is missing. -/
theorem C10_empty_field_skips (net : String → Except String Csv)
    (writeOk : String → Bool) (ds : Dataset) (lr : Nat)
    (h : ds.identifier = some "" ∨ ds.modified = some "") :
    process_dataset net writeOk ds lr = .ok (none, []) ∧
    process_dataset net writeOk ⟨none, none, ds.theme, ds.distribution⟩ lr =
      .ok (none, []) := by
  have h' : ds.identifier.getD "" = "" ∨ ds.modified.getD "" = "" := by
    rcases h with h | h
    · exact Or.inl (by rw [h]; rfl)
    · exact Or.inr (by rw [h]; rfl)
  constructor
  · simp only [process_dataset]
    rw [if_pos h']
  · simp [process_dataset]

/-- C10 witness: empty-string `identifier` with an otherwise fully valid,
strictly newer descriptor still yields the skip result. -/
theorem C10_witness :
    process_dataset (fun _ => .ok ⟨["c"], []⟩) (fun _ => true)
      ⟨some "", some "0001-01-02", some ["Hospitals"], [⟨some "u"⟩]⟩ 0 =
      .ok (none, []) :=
  (C10_empty_field_skips (fun _ => .ok ⟨["c"], []⟩) (fun _ => true)
    ⟨some "", some "0001-01-02", some ["Hospitals"], [⟨some "u"⟩]⟩ 0
    (Or.inl rfl)).1

/-- On a successful dataset pass the trace records exactly one completed
attempt per candidate, in order, and nothing else. -/
theorem processAll_trace (net : String → Except String Csv) (writeOk : String → Bool)
    (lr : Nat) :
    ∀ (l : List Dataset) (out : RunOut), processAll net writeOk lr l = .ok out →
      out.trace = l.map (fun ds => Event.attempt (ds.identifier.getD "")) := by
  intro l
  induction l with
  | nil =>
    intro out h
    simp only [processAll] at h
    cases h
    rfl
  | cons d rest ih =>
    intro out h
    simp only [processAll] at h
    cases hp : process_dataset net writeOk d lr with
    | error e => rw [hp] at h; exact Except.noConfusion h
    | ok pr =>
      obtain ⟨r, ws⟩ := pr
      simp only [hp] at h
      cases hr : processAll net writeOk lr rest with
      | error e => rw [hr] at h; exact Except.noConfusion h
      | ok out2 =>
        simp only [hr] at h
        cases h
        simp only [List.map_cons, List.cons.injEq]
        exact ⟨trivial, ih out2 hr⟩

/-- C8: when the run completes, the new watermark is persisted exactly once,
strictly after every dataset-processing attempt (`Event.save` is the final
trace entry, preceded by one attempt per candidate), and unconditionally —
even when zero datasets were written; when the run aborts (metadata load
error, catalog error, or an escaped per-dataset exception) the prior
metadata file is left unchanged. -/
theorem C8_watermark_persistence (metaFile : Option String)
    (catalog : Except String (List Dataset)) (net : String → Except String Csv)
    (writeOk : String → Bool) (now_iso : String) :
    (∀ out, (run_etl_job metaFile catalog net writeOk now_iso).1 = .ok out →
      (run_etl_job metaFile catalog net writeOk now_iso).2 =
        some (update_last_run_date now_iso) ∧
      (∃ dss, catalog = .ok dss ∧
        out.trace = ((fetch_hospital_datasets dss).map
          (fun ds => Event.attempt (ds.identifier.getD ""))) ++ [Event.save now_iso]) ∧
      out.trace.countP isSaveEvent = 1) ∧
    (∀ e, (run_etl_job metaFile catalog net writeOk now_iso).1 = .error e →
      (run_etl_job metaFile catalog net writeOk now_iso).2 = metaFile) := by
  cases hl : load_last_update_date metaFile with
  | error e0 =>
    constructor
    · intro out h
      simp only [run_etl_job, hl] at h
      exact Except.noConfusion h
    · intro e h
      simp only [run_etl_job, hl]
  | ok lr =>
    cases catalog with
    | error e0 =>
      constructor
      · intro out h
        simp only [run_etl_job, hl] at h
        exact Except.noConfusion h
      · intro e h
        simp only [run_etl_job, hl]
    | ok dss =>
      cases hp : processAll net writeOk lr (fetch_hospital_datasets dss) with
      | error e0 =>
        constructor
        · intro out h
          simp only [run_etl_job, hl, hp] at h
          exact Except.noConfusion h
        · intro e h
          simp only [run_etl_job, hl, hp]
      | ok pout =>
        have htr := processAll_trace net writeOk lr (fetch_hospital_datasets dss) pout hp
        constructor
        · intro out h
          simp only [run_etl_job, hl, hp] at h
          cases h
          refine ⟨by simp only [run_etl_job, hl, hp], ⟨dss, rfl, by rw [htr]⟩, ?_⟩
          simp only [List.countP_append, htr, List.countP_map]
          have h0 : (fetch_hospital_datasets dss).countP
              (isSaveEvent ∘ fun ds => Event.attempt (ds.identifier.getD "")) = 0 := by
            rw [List.countP_eq_zero]
            intro a _
            simp [Function.comp, isSaveEvent]
          rw [h0]
          rfl
        · intro e h
          simp only [run_etl_job, hl, hp] at h
          exact Except.noConfusion h

/-- C8 witness: a run over an empty catalog result (zero candidates, zero
datasets written) still persists the watermark, with the save as sole trace
event; a run with a fatal catalog error leaves the metadata file unchanged. -/
theorem C8_witness :
    ((run_etl_job none (.ok []) (fun _ => .error "net") (fun _ => true)
        "0001-01-02").2 = some (update_last_run_date "0001-01-02") ∧
      (⟨[Event.save "0001-01-02"], [], []⟩ : RunOut).trace.countP isSaveEvent = 1) ∧
    (run_etl_job none (.error "HTTP 500") (fun _ => .error "net") (fun _ => true)
        "0001-01-02").2 = none := by
  constructor
  · have h := (C8_watermark_persistence none (.ok []) (fun _ => .error "net")
      (fun _ => true) "0001-01-02").1 ⟨[Event.save "0001-01-02"], [], []⟩ rfl
    exact ⟨h.1, h.2.2⟩
  · exact (C8_watermark_persistence none (.error "HTTP 500") (fun _ => .error "net")
      (fun _ => true) "0001-01-02").2 "HTTP 500" rfl

/-- C9: `load_last_update_date` returns `datetime.min` (the least timestamp)
when no metadata record exists, without failing; when the record exists but
its JSON or its timestamp cannot be parsed, it raises, and that error aborts
`run_etl_job` (leaving the corrupt file in place) instead of degrading to
"process all". -/
theorem C9_metadata_load (s : String) (catalog : Except String (List Dataset))
    (net : String → Except String Csv) (writeOk : String → Bool) (now_iso : String)
    (hcorrupt : metaLastRun s = none ∨
      ∃ lr, metaLastRun s = some lr ∧ fromisoformat lr = none) :
    load_last_update_date none = .ok datetimeMin ∧
    (∀ t : Nat, datetimeMin ≤ t) ∧
    (∃ e, load_last_update_date (some s) = .error e) ∧
    (∃ e, (run_etl_job (some s) catalog net writeOk now_iso).1 = .error e ∧
      (run_etl_job (some s) catalog net writeOk now_iso).2 = some s) := by
  have hload : ∃ e, load_last_update_date (some s) = .error e := by
    rcases hcorrupt with h | ⟨lr, hlr, hf⟩
    · exact ⟨"metadata corrupt: json decode error",
        by simp only [load_last_update_date, h]⟩
    · exact ⟨"metadata corrupt: invalid isoformat string",
        by simp only [load_last_update_date, hlr, hf]⟩
  obtain ⟨e, he⟩ := hload
  refine ⟨rfl, fun t => Nat.zero_le t, ⟨e, he⟩, e, ?_, ?_⟩
  · simp only [run_etl_job, he]
  · simp only [run_etl_job, he]

/-- C9 witness: at the corrupt content `"garbage"` the load fails and the run
aborts with the metadata untouched. -/
theorem C9_witness :
    load_last_update_date none = .ok datetimeMin ∧
    (∃ e, load_last_update_date (some "garbage") = .error e) ∧
    (∃ e, (run_etl_job (some "garbage") (.ok []) (fun _ => .error "net")
        (fun _ => true) "0001-01-02").1 = .error e ∧
      (run_etl_job (some "garbage") (.ok []) (fun _ => .error "net")
        (fun _ => true) "0001-01-02").2 = some "garbage") := by
  have h := C9_metadata_load "garbage" (.ok []) (fun _ => .error "net")
    (fun _ => true) "0001-01-02" (Or.inl (by decide))
  exact ⟨h.1, h.2.2.1, h.2.2.2⟩

end CmsEtl
